import Mathlib

/-!
Verification of the batch enrichment pipeline of `recall-food-gen-ai`.

The definitions below are a shallow embedding of
`src/recall-etl-func/etl_az_openai_gen_ai.py` (the Azure-functions variant of
the pipeline; `src/recall-etl/batch_processing_gen_ai.py` is the earlier Redis
variant with the same batching and persistence shape).

Modelling conventions:
- the external generation service is an oracle `gen : Nat → GenOutcome`
  giving the outcome of each successive call attempt for one item
  (`String → Nat → GenOutcome` at batch level: item key, then attempt);
- the durable table store is an association list `List (String × String)`
  from RowKey to the stored summary text; `List.lookup`-style access takes
  the first matching pair, so prepending a pair implements `upsert_entity`
  (insert-or-replace);
- timing (retry sleeps, the inter-batch pacing delay) does not affect any
  data outcome and is modelled separately by `backoffDelay`, the exact
  arithmetic of line 153, over `ℚ`;
- `asyncio.gather` fan-out is a per-item pure computation: tasks share no
  state, so concurrent completion order is irrelevant to the final record
  values; the `isinstance(result, Exception)` arm is dead in the model
  because the embedded generator function always returns (as the Python one
  does on every path with `max_retries ≥ 0`).
-/

/-- One unit of work: `RecallItem` dataclass,
`src/recall-etl-func/etl_az_openai_gen_ai.py` lines 27-34.
`data` is the opaque raw payload (an open key/value record). -/
structure RecallItem where
  recall_id : String
  data : List (String × String)
  summary : Option String
  processed : Bool
  error : Option String
deriving Repr, DecidableEq

/-- An item as the loader creates it (line 289): only `recall_id` and `data`
are set; `summary`, `processed`, `error` keep their dataclass defaults. -/
def fresh (item : RecallItem) : Bool :=
  !item.processed && item.summary.isNone && item.error.isNone

/-- Outcome of one call to the external generation service
(`client.chat.completions.create`, line 132): success with the returned
text, a `ServiceRequestError` (the one exception class retried as
transient, line 143), or any other exception (non-transient, line 157). -/
inductive GenOutcome where
  | success (text : String)
  | transient (msg : String)
  | permanent (msg : String)
deriving Repr, DecidableEq

/-- The four `AZURE_OAI_*` environment variables read at lines 112-115. -/
structure Config where
  azure_oai_endpoint : Option String
  azure_oai_key : Option String
  azure_oai_deployment : Option String
  azure_oai_api_version : Option String
deriving Repr, DecidableEq

/-- The `all([...])` credential check of line 117. -/
def Config.complete (cfg : Config) : Bool :=
  cfg.azure_oai_endpoint.isSome && cfg.azure_oai_key.isSome &&
    cfg.azure_oai_deployment.isSome && cfg.azure_oai_api_version.isSome

/-- Result of the retry loop: the summary text or the final error string,
together with the number of generation-call attempts that were issued. -/
inductive GenResult where
  | ok (text : String) (attempts : Nat)
  | fail (err : String) (attempts : Nat)
deriving Repr, DecidableEq

/-- The `while retry_count <= max_retries` loop of lines 129-162.
`retry_count` is the loop variable; `fuel` is the structural bound
`max_retries + 1 - retry_count`, which the loop maintains, so the
`fuel = 0` base case is never reached from `generate_summary_with_retry`
(the Python loop always returns from inside its body when
`max_retries ≥ 0`). On a transient error the code increments
`retry_count` and gives up once `retry_count > max_retries` (lines
145-150), producing the `"Max retries exceeded"` message from the last
exception; any other exception returns at once with the
`"Error generating summary"` message (lines 157-162). -/
def retryLoop (gen : Nat → GenOutcome) (recall_id : String) (max_retries : Nat) :
    Nat → Nat → GenResult
  | _, 0 => GenResult.fail "" 0
  | retry_count, fuel + 1 =>
    match gen retry_count with
    | GenOutcome.success text => GenResult.ok text (retry_count + 1)
    | GenOutcome.transient msg =>
      if retry_count + 1 > max_retries then
        GenResult.fail ("Max retries exceeded for " ++ recall_id ++ ": " ++ msg)
          (retry_count + 1)
      else
        retryLoop gen recall_id max_retries (retry_count + 1) fuel
    | GenOutcome.permanent msg =>
      GenResult.fail ("Error generating summary for " ++ recall_id ++ ": " ++ msg)
        (retry_count + 1)

/-- Embedding of `generate_summary_with_retry`, lines 89-162.  Returns the updated item
together with the number of generation calls actually issued.  Already
processed items return immediately (line 93); a missing credential
(line 117) records the configuration error and issues no call; otherwise
the retry loop runs.  On success the summary is set and the item marked
processed (lines 139-140); on failure only `error` is set.  Prompt and
system-message construction (lines 96-109) affect only the text sent to
the external service, not the control flow, and are not modelled. -/
def generate_summary_with_retry (cfg : Config) (gen : Nat → GenOutcome)
    (recall_item : RecallItem) (max_retries : Nat) : RecallItem × Nat :=
  if recall_item.processed then (recall_item, 0)
  else if !cfg.complete then
    ({ recall_item with error := some "Missing required Azure OpenAI configuration" }, 0)
  else
    match retryLoop gen recall_item.recall_id max_retries 0 (max_retries + 1) with
    | GenResult.ok text n =>
      ({ recall_item with summary := some text, processed := true }, n)
    | GenResult.fail e n => ({ recall_item with error := some e }, n)

/-- The exact backoff expression of line 153,
`min(60, base_delay * (2 ** (retry_count - 1))) * (0.5 + 0.5 * (time.time() % 1))`,
over exact rational arithmetic; `frac` stands for `time.time() % 1`. -/
def backoffDelay (base_delay : ℚ) (retry_count : Nat) (frac : ℚ) : ℚ :=
  min 60 (base_delay * 2 ^ (retry_count - 1)) * (1 / 2 + 1 / 2 * frac)

/-- Outcome of the per-item Table Storage query of lines 180-183: an entity
with a `summary` column, an entity without one, no entity, or an exception
raised by the query (caught at line 187). -/
inductive LookupResult where
  | found (summary : String)
  | foundWithoutSummary
  | notFound
  | lookupError (msg : String)
deriving Repr, DecidableEq

/-- The pre-check of lines 176-188 for one item: only unprocessed items are
queried; a found summary marks the item processed; an entity without a
`summary` column, a miss, or a query exception all leave the item exactly
as it was (the exception is only logged). -/
def cacheCheck (lk : String → LookupResult) (item : RecallItem) : RecallItem :=
  if item.processed then item
  else
    match lk item.recall_id with
    | LookupResult.found s => { item with summary := some s, processed := true }
    | LookupResult.foundWithoutSummary => item
    | LookupResult.notFound => item
    | LookupResult.lookupError _ => item

/-- Python truthiness of the `item.summary` test in line 216
(`None` and the empty string are falsy). -/
def truthy : Option String → Bool
  | none => false
  | some s => s != ""

/-- The error message written to every item when the table client is
unavailable, line 170. -/
def skippedError : String := "Skipped due to unavailable Table Storage"

/-- One concurrent generation task of line 199: `generate_summary_with_retry`
returns an already-processed item unchanged (line 93), so mapping the task
over the whole checked batch equals running it on the `to_process`
filtrate (line 191) and merging results back in place; the pair's second
component is the number of generation calls the task issued. -/
def genStep (cfg : Config) (gen : String → Nat → GenOutcome) (max_retries : Nat)
    (item : RecallItem) : RecallItem × Nat :=
  if item.processed then (item, 0)
  else generate_summary_with_retry cfg (gen item.recall_id) item max_retries

/-- The persist filter of line 216, `item.processed and item.summary and not
item.error` (Python truthiness: an empty-string summary is falsy), giving
the `(RowKey, summary)` part of the entity of lines 219-225. -/
def persistEntity (item : RecallItem) : Option (String × String) :=
  match item.summary with
  | some s =>
    if item.processed && s != "" && item.error.isNone then
      some (item.recall_id, s)
    else none
  | none => none

/-- Result of `process_batch`: the returned items, the number of per-item
Table Storage queries made by the pre-check, the number of generation
calls issued, and the `(RowKey, summary)` entities handed to
`upsert_entity` (lines 219-228). -/
structure BatchResult where
  items : List RecallItem
  lookups : Nat
  genCalls : Nat
  upserts : List (String × String)
deriving Repr, DecidableEq

/-- Embedding of `process_batch`, lines 164-243. With no table client (line 166) every
item is marked unprocessed with the skip error and nothing else happens.
Otherwise: the cache pre-check runs on every unprocessed item (lines
176-188), `to_process` collects the still-unprocessed items (line 191),
and if it is empty the function returns before the persist step (line
193-194). Otherwise each `to_process` item is generated (lines 199-208;
in-place mutation means the final `batch` holds the generated records),
and the persist loop (lines 210-241) builds an upsert for every item of
the whole batch satisfying `item.processed and item.summary and not
item.error` (line 216) — the filter does not distinguish cache hits from
newly generated items. -/
def process_batch (table_client : Option (String → LookupResult)) (cfg : Config)
    (gen : String → Nat → GenOutcome) (max_retries : Nat)
    (batch : List RecallItem) : BatchResult :=
  match table_client with
  | none =>
    { items := batch.map (fun item =>
        { item with processed := false, error := some skippedError }),
      lookups := 0, genCalls := 0, upserts := [] }
  | some lk =>
    let checked := batch.map (cacheCheck lk)
    let lookups := (batch.filter (fun item => !item.processed)).length
    if (checked.filter (fun item => !item.processed)).isEmpty then
      { items := checked, lookups := lookups, genCalls := 0, upserts := [] }
    else
      let results := checked.map (genStep cfg gen max_retries)
      let items := results.map Prod.fst
      { items := items,
        lookups := lookups,
        genCalls := (results.map Prod.snd).sum,
        upserts := items.filterMap persistEntity }

/-- Query of the table store by RowKey (first matching entry wins). -/
def tableLookup (store : List (String × String)) (key : String) : Option String :=
  match store with
  | [] => none
  | (k, v) :: rest => if k = key then some v else tableLookup rest key

/-- The Table Storage query of lines 180-183 against a reachable store that
raises no per-item errors: hit when the RowKey is present (every entity
written by this pipeline carries a `summary` column, line 219-225). -/
def storeLookup (store : List (String × String)) (recall_id : String) : LookupResult :=
  match tableLookup store recall_id with
  | some s => LookupResult.found s
  | none => LookupResult.notFound

/-- Embedding of `table_client.upsert_entity` (line 228): insert-or-replace by RowKey.
With first-match lookup, prepending shadows any older entry for the key. -/
def upsertEntity (store : List (String × String)) (key val : String) :
    List (String × String) :=
  (key, val) :: store

/-- The grouped write of line 238: all upserts of one batch applied to the
store. -/
def applyUpserts (store : List (String × String)) :
    List (String × String) → List (String × String)
  | [] => store
  | (k, v) :: rest => applyUpserts (upsertEntity store k v) rest

/-- One step of the slicing loop of lines 293-294
(`batch = recall_items[i:i+batch_size]`), with `fuel` a structural bound on
the number of slices (`items.length` suffices when `B ≥ 1`). -/
def splitGo {α : Type} (B : Nat) : Nat → List α → List (List α)
  | _, [] => []
  | 0, _ :: _ => []
  | fuel + 1, x :: xs => (x :: xs).take B :: splitGo B fuel ((x :: xs).drop B)

/-- The batching step of `process_food_recall_data`, lines 292-294:
`for i in range(0, len(recall_items), batch_size)` slicing
`recall_items[i:i+batch_size]`. A zero step is a `ValueError` in Python and
is modelled as producing no batches (every claim assumes `batch_size ≥ 1`). -/
def split {α : Type} (items : List α) (batch_size : Nat) : List (List α) :=
  if batch_size = 0 then [] else splitGo batch_size items.length items

/-- Embedding of `get_table_client` (lines 36-67) reduced to its observable outcome: a
client exists iff the connection string is set (lines 41-43) and connecting
to Table Storage succeeds (`connectOk`; the `except` of lines 65-67). -/
def get_table_client (connection_string : Option String) (connectOk : Bool) : Bool :=
  connection_string.isSome && connectOk

/-- Result of a completed run of `process_food_recall_data`. -/
structure RunResult where
  items : List RecallItem
  lookups : Nat
  genCalls : Nat
  store : List (String × String)
  success : Bool
deriving Repr, DecidableEq

/-- The batch loop of lines 292-303: each batch is processed against the
current store, its upserts are applied, and results are concatenated in
order. `max_retries` is 3 throughout because line 199 calls
`generate_summary_with_retry(item)` with its defaults. -/
def runBatches (cfg : Config) (gen : String → Nat → GenOutcome)
    (store : List (String × String)) :
    List (List RecallItem) →
      List RecallItem × Nat × Nat × List (String × String)
  | [] => ([], 0, 0, store)
  | b :: bs =>
    let r := process_batch (some (storeLookup store)) cfg gen 3 b
    let rest := runBatches cfg gen (applyUpserts store r.upserts) bs
    (r.items ++ rest.1, r.lookups + rest.2.1, r.genCalls + rest.2.2.1, rest.2.2.2)

/-- Embedding of `process_food_recall_data`, lines 245-327. If `get_table_client` yields
no client the run returns `False` at once (lines 256-259), before the blob
download and before any `RecallItem` is created — modelled as `none`.
Otherwise the already-loaded items (blob download and JSON parsing, lines
261-289, are external I/O) are sliced into batches and processed in order;
the run reports success iff at least one item ended processed without an
error (lines 306, 323). -/
def process_food_recall_data (connection_string : Option String) (connectOk : Bool)
    (store : List (String × String)) (cfg : Config)
    (gen : String → Nat → GenOutcome) (recall_items : List RecallItem)
    (batch_size : Nat) : Option RunResult :=
  if get_table_client connection_string connectOk then
    let r := runBatches cfg gen store (split recall_items batch_size)
    some { items := r.1, lookups := r.2.1, genCalls := r.2.2.1, store := r.2.2.2,
           success := r.1.any (fun item => item.processed && item.error.isNone) }
  else none

/-! ### Concrete instances used to evaluate the definitions -/

/-- A configuration with all four generation credentials present. -/
def cfgFull : Config :=
  { azure_oai_endpoint := some "e", azure_oai_key := some "k",
    azure_oai_deployment := some "d", azure_oai_api_version := some "v" }

/-- A configuration with every generation credential missing. -/
def cfgEmpty : Config :=
  { azure_oai_endpoint := none, azure_oai_key := none,
    azure_oai_deployment := none, azure_oai_api_version := none }

/-- A freshly loaded item with key `"A"`. -/
def itemA : RecallItem :=
  { recall_id := "A", data := [], summary := none, processed := false,
    error := none }

/-- A freshly loaded item with key `"B"`. -/
def itemB : RecallItem :=
  { recall_id := "B", data := [], summary := none, processed := false,
    error := none }

/-- Item `"A"` after a successful generation of `"a summary"`. -/
def itemA_generated : RecallItem :=
  { recall_id := "A", data := [], summary := some "a summary",
    processed := true, error := none }

/-- Item `"A"` after the missing-credential branch of
`generate_summary_with_retry`. -/
def itemA_configError : RecallItem :=
  { recall_id := "A", data := [], summary := none, processed := false,
    error := some "Missing required Azure OpenAI configuration" }

/-- Item `"A"` after the no-table-client branch of `process_batch`. -/
def itemA_skipped : RecallItem :=
  { recall_id := "A", data := [], summary := none, processed := false,
    error := some skippedError }

/-- A generation service that succeeds at the first attempt for every item. -/
def genOk : String → Nat → GenOutcome :=
  fun _ _ => GenOutcome.success "a summary"

/-- A generation service that fails transiently on every attempt (used to
check that a fully cached run never consults the generator). -/
def genDown : String → Nat → GenOutcome :=
  fun _ _ => GenOutcome.transient "down"

/-- A table query that raises on every key. -/
def lkErr : String → LookupResult :=
  fun _ => LookupResult.lookupError "query failed"

/-- A table query that misses on every key. -/
def lkMissAll : String → LookupResult :=
  fun _ => LookupResult.notFound

/-- A store already holding a summary for item `"B"` only. -/
def storeB : List (String × String) := [("B", "cached summary")]

/-- The run of the pipeline over `[itemA]` with an empty store and a
first-attempt-success generator: one lookup, one generation call, the
summary persisted. -/
def run1Result : RunResult :=
  { items := [itemA_generated], lookups := 1, genCalls := 1,
    store := [("A", "a summary")], success := true }

/-- The run of the pipeline over `[itemA]` against the store produced by
`run1Result`: one lookup, a cache hit, zero generation calls. -/
def run2Result : RunResult :=
  { items := [itemA_generated], lookups := 1, genCalls := 0,
    store := [("A", "a summary")], success := true }

/-- The run of the pipeline over `[itemA]` with generation credentials
missing: the run completes (it does not abort), the cache is queried once,
no generation call is issued, and the item carries the configuration
error. -/
def runConfigErr : RunResult :=
  { items := [itemA_configError], lookups := 1, genCalls := 0, store := [],
    success := false }

/-! ### Lemmas about the batching step -/

lemma splitGo_flatten {α : Type} (B : Nat) (hB : 1 ≤ B) :
    ∀ (fuel : Nat) (l : List α), l.length ≤ fuel → (splitGo B fuel l).flatten = l := by
  intro fuel
  induction fuel with
  | zero =>
    intro l hl
    cases l with
    | nil => rfl
    | cons x xs => simp at hl
  | succ n ih =>
    intro l hl
    cases l with
    | nil => rfl
    | cons x xs =>
      simp only [splitGo, List.flatten_cons]
      rw [ih]
      · exact List.take_append_drop B (x :: xs)
      · simp only [List.length_drop, List.length_cons]
        simp only [List.length_cons] at hl
        omega

lemma splitGo_length {α : Type} (B : Nat) (hB : 1 ≤ B) :
    ∀ (fuel : Nat) (l : List α), l.length ≤ fuel →
      (splitGo B fuel l).length = (l.length + B - 1) / B := by
  intro fuel
  induction fuel with
  | zero =>
    intro l hl
    cases l with
    | nil =>
      simp only [splitGo, List.length_nil]
      rw [Nat.div_eq_of_lt (by omega)]
    | cons x xs => simp at hl
  | succ n ih =>
    intro l hl
    cases l with
    | nil =>
      simp only [splitGo, List.length_nil]
      rw [Nat.div_eq_of_lt (by omega)]
    | cons x xs =>
      have hlen : (x :: xs).length = xs.length + 1 := List.length_cons x xs
      simp only [splitGo, List.length_cons]
      rw [ih ((x :: xs).drop B) (by simp only [List.length_drop, List.length_cons]; simp only [List.length_cons] at hl; omega)]
      simp only [List.length_drop, List.length_cons]
      have h1 : xs.length + 1 + B - 1 = (xs.length + 1 - 1) + B := by omega
      rw [h1, Nat.add_div_right _ (by omega : 0 < B)]
      congr 1
      rcases le_or_lt B (xs.length + 1) with h | h
      · congr 1
        omega
      · have h2 : xs.length + 1 - B = 0 := by omega
        rw [h2]
        rw [Nat.div_eq_of_lt (by omega), Nat.div_eq_of_lt (by omega)]

lemma splitGo_sizes {α : Type} (B : Nat) :
    ∀ (fuel : Nat) (l : List α), ∀ b ∈ splitGo B fuel l, b.length ≤ B := by
  intro fuel
  induction fuel with
  | zero =>
    intro l b hb
    cases l <;> simp [splitGo] at hb
  | succ n ih =>
    intro l b hb
    cases l with
    | nil => simp [splitGo] at hb
    | cons x xs =>
      simp only [splitGo, List.mem_cons] at hb
      rcases hb with rfl | hb
      · simp only [List.length_take]
        exact Nat.min_le_left _ _
      · exact ih _ b hb

lemma splitGo_subset {α : Type} (B : Nat) :
    ∀ (fuel : Nat) (l : List α), ∀ b ∈ splitGo B fuel l, ∀ x ∈ b, x ∈ l := by
  intro fuel
  induction fuel with
  | zero =>
    intro l b hb
    cases l <;> simp [splitGo] at hb
  | succ n ih =>
    intro l b hb y hy
    cases l with
    | nil => simp [splitGo] at hb
    | cons x xs =>
      simp only [splitGo, List.mem_cons] at hb
      rcases hb with rfl | hb
      · exact List.take_subset B (x :: xs) hy
      · exact List.drop_subset B (x :: xs) (ih _ b hb y hy)

lemma split_flatten {α : Type} (items : List α) (B : Nat) (hB : 1 ≤ B) :
    (split items B).flatten = items := by
  unfold split
  rw [if_neg (by omega)]
  exact splitGo_flatten B hB items.length items le_rfl

lemma split_length {α : Type} (items : List α) (B : Nat) (hB : 1 ≤ B) :
    (split items B).length = (items.length + B - 1) / B := by
  unfold split
  rw [if_neg (by omega)]
  exact splitGo_length B hB items.length items le_rfl

lemma split_sizes {α : Type} (items : List α) (B : Nat) :
    ∀ b ∈ split items B, b.length ≤ B := by
  unfold split
  split
  · simp
  · exact splitGo_sizes B items.length items

lemma split_subset {α : Type} (items : List α) (B : Nat) :
    ∀ b ∈ split items B, ∀ x ∈ b, x ∈ items := by
  unfold split
  split
  · simp
  · exact splitGo_subset B items.length items

/-- C1: for every list of N items and every `batch_size` B ≥ 1, the batching
step of the run partitions the items into `⌈N/B⌉` batches (written
`(N + B - 1) / B` in natural division), each of size at most B, and
concatenating the batches in order yields exactly the original item
sequence — no reordering, no drops, no duplicates. -/
theorem C1_batch_partition {α : Type} (items : List α) (batch_size : Nat)
    (hB : 1 ≤ batch_size) :
    (split items batch_size).length = (items.length + batch_size - 1) / batch_size ∧
    (∀ b ∈ split items batch_size, b.length ≤ batch_size) ∧
    (split items batch_size).flatten = items :=
  ⟨split_length items batch_size hB, split_sizes items batch_size,
    split_flatten items batch_size hB⟩

/-- Witness for C1 at five items and batch size two: three batches whose
concatenation restores the input. -/
theorem C1_batch_partition_witness :
    (split [10, 20, 30, 40, 50] 2).length = (5 + 2 - 1) / 2 ∧
    (split [10, 20, 30, 40, 50] 2).flatten = [10, 20, 30, 40, 50] :=
  ⟨(C1_batch_partition [10, 20, 30, 40, 50] 2 (by decide)).1,
    (C1_batch_partition [10, 20, 30, 40, 50] 2 (by decide)).2.2⟩

/-! ### Lemmas about the retry loop -/

lemma retryLoop_all_transient (gen : Nat → GenOutcome) (recall_id : String)
    (m : Nat → String) (max_retries : Nat)
    (hgen : ∀ i, gen i = GenOutcome.transient (m i)) :
    ∀ (fuel retry_count : Nat), retry_count + fuel = max_retries + 1 →
      retry_count ≤ max_retries →
      retryLoop gen recall_id max_retries retry_count fuel =
        GenResult.fail
          ("Max retries exceeded for " ++ recall_id ++ ": " ++ m max_retries)
          (max_retries + 1) := by
  intro fuel
  induction fuel with
  | zero =>
    intro rc h1 h2
    omega
  | succ n ih =>
    intro rc h1 h2
    simp only [retryLoop, hgen rc]
    by_cases hcase : rc + 1 > max_retries
    · rw [if_pos hcase]
      have : rc = max_retries := by omega
      subst this
      rfl
    · rw [if_neg hcase]
      exact ih (rc + 1) (by omega) (by omega)

lemma retryLoop_succeeds (gen : Nat → GenOutcome) (recall_id : String)
    (max_retries k : Nat) (s : String)
    (hk : k ≤ max_retries)
    (hfail : ∀ i, i < k → ∃ msg, gen i = GenOutcome.transient msg)
    (hsucc : gen k = GenOutcome.success s) :
    ∀ (fuel retry_count : Nat), retry_count + fuel = max_retries + 1 →
      retry_count ≤ k →
      retryLoop gen recall_id max_retries retry_count fuel = GenResult.ok s (k + 1) := by
  intro fuel
  induction fuel with
  | zero =>
    intro rc h1 h2
    omega
  | succ n ih =>
    intro rc h1 h2
    rcases Nat.eq_or_lt_of_le h2 with rfl | hlt
    · simp only [retryLoop, hsucc]
    · obtain ⟨msg, hmsg⟩ := hfail rc hlt
      simp only [retryLoop, hmsg]
      rw [if_neg (by omega)]
      exact ih (rc + 1) (by omega) (by omega)

/-- C4: for an item whose generation call raises a transient error on every
attempt, `generate_summary_with_retry` issues exactly `max_retries + 1`
attempts (the initial attempt plus `max_retries` retries), then stops and
records the "Max retries exceeded" error carrying the last attempt's failure
message `m max_retries`; the item is not marked processed and its summary is
untouched. -/
theorem C4_retry_exhaustion (cfg : Config) (gen : Nat → GenOutcome)
    (m : Nat → String) (item : RecallItem) (max_retries : Nat)
    (hcfg : cfg.complete = true) (hp : item.processed = false)
    (hgen : ∀ i, gen i = GenOutcome.transient (m i)) :
    generate_summary_with_retry cfg gen item max_retries =
      ({ item with
          error := some ("Max retries exceeded for " ++ item.recall_id ++ ": " ++
            m max_retries) },
        max_retries + 1) := by
  have hr := retryLoop_all_transient gen item.recall_id m max_retries hgen
    (max_retries + 1) 0 (by omega) (Nat.zero_le _)
  simp only [generate_summary_with_retry, hp, hcfg, hr]
  rfl

/-- Witness for C4: four transient failures with `max_retries = 3` end with
the item failed after exactly four attempts. -/
theorem C4_retry_exhaustion_witness :
    generate_summary_with_retry
      { azure_oai_endpoint := some "e", azure_oai_key := some "k",
        azure_oai_deployment := some "d", azure_oai_api_version := some "v" }
      (fun _ => GenOutcome.transient "connection reset")
      { recall_id := "F-001", data := [], summary := none, processed := false,
        error := none } 3 =
      ({ recall_id := "F-001", data := [], summary := none, processed := false,
          error := some "Max retries exceeded for F-001: connection reset" }, 4) :=
  C4_retry_exhaustion
    { azure_oai_endpoint := some "e", azure_oai_key := some "k",
      azure_oai_deployment := some "d", azure_oai_api_version := some "v" }
    (fun _ => GenOutcome.transient "connection reset")
    (fun _ => "connection reset")
    { recall_id := "F-001", data := [], summary := none, processed := false,
      error := none }
    3 rfl rfl (fun _ => rfl)

/-- C5: the delay slept before retry attempt `k ≥ 1` is
`min(60, base_delay * 2^(k-1))` scaled by the jitter factor
`0.5 + 0.5 * frac` with `frac = time.time() % 1 ∈ [0, 1)`: it is at least
half of `min(60, base_delay * 2^(k-1))` and strictly below it (modelled over
exact rational arithmetic; the default `base_delay` is 2 and the cap is the
literal 60 of line 153). -/
theorem C5_backoff_bounds (base_delay : ℚ) (k : Nat) (frac : ℚ)
    (hb : 0 < base_delay) (hk : 1 ≤ k) (h0 : 0 ≤ frac) (h1 : frac < 1) :
    min 60 (base_delay * 2 ^ (k - 1)) / 2 ≤ backoffDelay base_delay k frac ∧
    backoffDelay base_delay k frac < min 60 (base_delay * 2 ^ (k - 1)) := by
  have hm : (0 : ℚ) < min 60 (base_delay * 2 ^ (k - 1)) :=
    lt_min (by norm_num) (by positivity)
  unfold backoffDelay
  constructor
  · nlinarith [mul_nonneg (le_of_lt hm) h0]
  · nlinarith [mul_pos hm (by linarith : (0 : ℚ) < 1 - frac)]

/-- Witness for C5 at the defaults: first retry, `base_delay = 2`,
`frac = 0` gives a delay of exactly half the uncapped backoff. -/
theorem C5_backoff_bounds_witness :
    min 60 ((2 : ℚ) * 2 ^ (1 - 1)) / 2 ≤ backoffDelay 2 1 0 ∧
    backoffDelay 2 1 0 < min 60 ((2 : ℚ) * 2 ^ (1 - 1)) :=
  C5_backoff_bounds 2 1 0 (by norm_num) (le_refl 1) (by norm_num) (by norm_num)

/-- C6: an item whose generation call fails transiently exactly `k` times
(`k < max_retries`) and then succeeds ends processed with the returned
summary after exactly `k + 1` generation attempts. -/
theorem C6_retry_convergence (cfg : Config) (gen : Nat → GenOutcome)
    (item : RecallItem) (k max_retries : Nat) (s : String)
    (hcfg : cfg.complete = true) (hp : item.processed = false)
    (hk : k < max_retries)
    (hfail : ∀ i, i < k → ∃ msg, gen i = GenOutcome.transient msg)
    (hsucc : gen k = GenOutcome.success s) :
    generate_summary_with_retry cfg gen item max_retries =
      ({ item with summary := some s, processed := true }, k + 1) := by
  have hr := retryLoop_succeeds gen item.recall_id max_retries k s (le_of_lt hk)
    hfail hsucc (max_retries + 1) 0 (by omega) (Nat.zero_le _)
  simp only [generate_summary_with_retry, hp, hcfg, hr]
  rfl

/-- Witness for C6: one transient failure then success, `max_retries = 3`:
the item ends generated with two attempts recorded. -/
theorem C6_retry_convergence_witness :
    generate_summary_with_retry
      { azure_oai_endpoint := some "e", azure_oai_key := some "k",
        azure_oai_deployment := some "d", azure_oai_api_version := some "v" }
      (fun i => if i = 0 then GenOutcome.transient "timeout"
                else GenOutcome.success "a summary")
      { recall_id := "F-002", data := [], summary := none, processed := false,
        error := none } 3 =
      ({ recall_id := "F-002", data := [], summary := some "a summary",
          processed := true, error := none }, 2) :=
  C6_retry_convergence
    { azure_oai_endpoint := some "e", azure_oai_key := some "k",
      azure_oai_deployment := some "d", azure_oai_api_version := some "v" }
    (fun i => if i = 0 then GenOutcome.transient "timeout"
              else GenOutcome.success "a summary")
    { recall_id := "F-002", data := [], summary := none, processed := false,
      error := none }
    1 3 "a summary" rfl rfl (by omega)
    (fun i hi => ⟨"timeout", by
      have hi0 : i = 0 := by omega
      subst hi0
      rfl⟩)
    rfl

/-! ### Facts about the per-item operations and the store -/

lemma fresh_spec (item : RecallItem) (h : fresh item = true) :
    item.processed = false ∧ item.summary = none ∧ item.error = none := by
  simp only [fresh, Bool.and_eq_true, Bool.not_eq_true',
    Option.isNone_iff_eq_none] at h
  exact ⟨h.1.1, h.1.2, h.2⟩

lemma cacheCheck_recall_id (lk : String → LookupResult) (item : RecallItem) :
    (cacheCheck lk item).recall_id = item.recall_id := by
  unfold cacheCheck
  split
  · rfl
  · split <;> rfl

lemma cacheCheck_processed (lk : String → LookupResult) (item : RecallItem)
    (hp : item.processed = true) : cacheCheck lk item = item := by
  unfold cacheCheck
  rw [if_pos hp]

lemma cacheCheck_fresh (lk : String → LookupResult) (item : RecallItem)
    (h : fresh item = true) :
    cacheCheck lk item = item ∨
      ∃ s, lk item.recall_id = LookupResult.found s ∧
        cacheCheck lk item = { item with summary := some s, processed := true } := by
  have hp := (fresh_spec item h).1
  unfold cacheCheck
  rw [hp]
  simp only [Bool.false_eq_true, if_false]
  cases hlk : lk item.recall_id with
  | found s => exact Or.inr ⟨s, rfl, rfl⟩
  | foundWithoutSummary => exact Or.inl rfl
  | notFound => exact Or.inl rfl
  | lookupError m => exact Or.inl rfl

lemma generate_recall_id (cfg : Config) (gen : Nat → GenOutcome)
    (item : RecallItem) (max_retries : Nat) :
    ((generate_summary_with_retry cfg gen item max_retries).1).recall_id =
      item.recall_id := by
  unfold generate_summary_with_retry
  split
  · rfl
  · split
    · rfl
    · split <;> rfl

lemma generate_cases (cfg : Config) (gen : Nat → GenOutcome) (item : RecallItem)
    (max_retries : Nat) (hp : item.processed = false) :
    (∃ s n, generate_summary_with_retry cfg gen item max_retries =
        ({ item with summary := some s, processed := true }, n)) ∨
    (∃ e n, generate_summary_with_retry cfg gen item max_retries =
        ({ item with error := some e }, n)) := by
  unfold generate_summary_with_retry
  rw [hp]
  simp only [Bool.false_eq_true, if_false]
  split
  · exact Or.inr ⟨_, 0, rfl⟩
  · cases hres : retryLoop gen item.recall_id max_retries 0 (max_retries + 1) with
    | ok t n => exact Or.inl ⟨t, n, rfl⟩
    | fail e n => exact Or.inr ⟨e, n, rfl⟩

lemma generate_incomplete (cfg : Config) (gen : Nat → GenOutcome)
    (item : RecallItem) (max_retries : Nat) (hc : cfg.complete = false) :
    generate_summary_with_retry cfg gen item max_retries =
      if item.processed then (item, 0)
      else ({ item with
        error := some "Missing required Azure OpenAI configuration" }, 0) := by
  unfold generate_summary_with_retry
  rw [hc]
  split
  · rfl
  · rfl

lemma genStep_recall_id (cfg : Config) (gen : String → Nat → GenOutcome)
    (max_retries : Nat) (item : RecallItem) :
    ((genStep cfg gen max_retries item).1).recall_id = item.recall_id := by
  unfold genStep
  split
  · rfl
  · exact generate_recall_id cfg (gen item.recall_id) item max_retries

lemma tableLookup_upsertEntity (store : List (String × String)) (k v key : String) :
    tableLookup (upsertEntity store k v) key =
      if k = key then some v else tableLookup store key := rfl

lemma tableLookup_applyUpserts_isSome (key : String) :
    ∀ (ups store : List (String × String)),
      (tableLookup store key).isSome = true →
      (tableLookup (applyUpserts store ups) key).isSome = true := by
  intro ups
  induction ups with
  | nil => intro store h; exact h
  | cons p rest ih =>
    intro store h
    obtain ⟨k, v⟩ := p
    simp only [applyUpserts]
    apply ih
    rw [tableLookup_upsertEntity]
    split
    · rfl
    · exact h

lemma tableLookup_applyUpserts_mem (key val : String) :
    ∀ (ups store : List (String × String)), (key, val) ∈ ups →
      (tableLookup (applyUpserts store ups) key).isSome = true := by
  intro ups
  induction ups with
  | nil => intro store h; simp at h
  | cons p rest ih =>
    intro store h
    obtain ⟨k, v⟩ := p
    rcases List.mem_cons.mp h with heq | hmem
    · obtain ⟨rfl, rfl⟩ := Prod.mk.injEq .. |>.mp heq
      simp only [applyUpserts]
      apply tableLookup_applyUpserts_isSome
      rw [tableLookup_upsertEntity, if_pos rfl]
      rfl
    · exact ih (upsertEntity store k v) hmem

/-! ### Facts about `process_batch` -/

lemma process_batch_none_eq (cfg : Config) (gen : String → Nat → GenOutcome)
    (max_retries : Nat) (batch : List RecallItem) :
    process_batch none cfg gen max_retries batch =
      { items := batch.map (fun item =>
          { item with processed := false, error := some skippedError }),
        lookups := 0, genCalls := 0, upserts := [] } := rfl

lemma process_batch_some_eq (lk : String → LookupResult) (cfg : Config)
    (gen : String → Nat → GenOutcome) (max_retries : Nat) (batch : List RecallItem) :
    process_batch (some lk) cfg gen max_retries batch =
      if ((batch.map (cacheCheck lk)).filter
            (fun item => !item.processed)).isEmpty then
        { items := batch.map (cacheCheck lk),
          lookups := (batch.filter (fun item => !item.processed)).length,
          genCalls := 0, upserts := [] }
      else
        { items := ((batch.map (cacheCheck lk)).map
            (genStep cfg gen max_retries)).map Prod.fst,
          lookups := (batch.filter (fun item => !item.processed)).length,
          genCalls := (((batch.map (cacheCheck lk)).map
            (genStep cfg gen max_retries)).map Prod.snd).sum,
          upserts := (((batch.map (cacheCheck lk)).map
            (genStep cfg gen max_retries)).map Prod.fst).filterMap persistEntity } := rfl

lemma map_recall_id_comp (f : RecallItem → RecallItem)
    (hf : ∀ it, (f it).recall_id = it.recall_id) :
    ∀ batch : List RecallItem,
      (batch.map f).map (fun it => it.recall_id) =
        batch.map (fun it => it.recall_id) := by
  intro batch
  induction batch with
  | nil => rfl
  | cons x xs ih => simp only [List.map_cons, ih, hf]

lemma ids_chain (lk : String → LookupResult) (cfg : Config)
    (gen : String → Nat → GenOutcome) (max_retries : Nat) :
    ∀ batch : List RecallItem,
      ((((batch.map (cacheCheck lk)).map (genStep cfg gen max_retries)).map
          Prod.fst).map (fun it => it.recall_id)) =
        batch.map (fun it => it.recall_id) := by
  intro batch
  induction batch with
  | nil => rfl
  | cons x xs ih =>
    simp only [List.map_cons, genStep_recall_id, cacheCheck_recall_id, ih]

lemma process_batch_ids (client : Option (String → LookupResult)) (cfg : Config)
    (gen : String → Nat → GenOutcome) (max_retries : Nat) (batch : List RecallItem) :
    ((process_batch client cfg gen max_retries batch).items).map
        (fun it => it.recall_id) =
      batch.map (fun it => it.recall_id) := by
  cases client with
  | none =>
    exact map_recall_id_comp
      (fun item => { item with processed := false, error := some skippedError })
      (fun it => rfl) batch
  | some lk =>
    rw [process_batch_some_eq]
    split
    · exact map_recall_id_comp _ (fun it => cacheCheck_recall_id lk it) batch
    · exact ids_chain lk cfg gen max_retries batch

lemma process_batch_terminal (client : Option (String → LookupResult)) (cfg : Config)
    (gen : String → Nat → GenOutcome) (max_retries : Nat) (batch : List RecallItem)
    (hfresh : ∀ it ∈ batch, fresh it = true) :
    ∀ it' ∈ (process_batch client cfg gen max_retries batch).items,
      (it'.summary.isSome = true ∧ it'.error = none ∧ it'.processed = true) ∨
      (it'.summary = none ∧ it'.error.isSome = true ∧ it'.processed = false) := by
  intro it' h
  cases client with
  | none =>
    rw [process_batch_none_eq] at h
    obtain ⟨it, hit, heq⟩ := List.mem_map.mp h
    obtain ⟨hp, hs, he⟩ := fresh_spec it (hfresh it hit)
    subst heq
    exact Or.inr ⟨hs, rfl, rfl⟩
  | some lk =>
    rw [process_batch_some_eq] at h
    by_cases hemp : ((batch.map (cacheCheck lk)).filter
        (fun item => !item.processed)).isEmpty = true
    · rw [if_pos hemp] at h
      have hproc : it'.processed = true := by
        rw [List.isEmpty_iff, List.filter_eq_nil_iff] at hemp
        have := hemp it' h
        simpa using this
      obtain ⟨it, hit, heq⟩ := List.mem_map.mp h
      obtain ⟨hp, hs, he⟩ := fresh_spec it (hfresh it hit)
      rcases cacheCheck_fresh lk it (hfresh it hit) with hcc | ⟨s, hfound, hcc⟩
      · rw [hcc] at heq
        subst heq
        rw [hp] at hproc
        exact absurd hproc (by simp)
      · rw [hcc] at heq
        subst heq
        exact Or.inl ⟨rfl, he, rfl⟩
    · rw [if_neg hemp] at h
      rw [List.map_map, List.map_map] at h
      obtain ⟨it, hit, heq⟩ := List.mem_map.mp h
      obtain ⟨hp, hs, he⟩ := fresh_spec it (hfresh it hit)
      rcases cacheCheck_fresh lk it (hfresh it hit) with hcc | ⟨s, hfound, hcc⟩
      · have heq' : it' = (genStep cfg gen max_retries it).1 := by
          rw [← hcc]; exact heq.symm
        have hgen : genStep cfg gen max_retries it =
            generate_summary_with_retry cfg (gen it.recall_id) it max_retries := by
          unfold genStep
          rw [hp]
          simp
        rw [hgen] at heq'
        rcases generate_cases cfg (gen it.recall_id) it max_retries hp with
          ⟨t, n, hres⟩ | ⟨e, n, hres⟩
        · rw [hres] at heq'
          subst heq'
          exact Or.inl ⟨rfl, he, rfl⟩
        · rw [hres] at heq'
          subst heq'
          exact Or.inr ⟨hs, rfl, hp⟩
      · have heq' : it' =
            (genStep cfg gen max_retries
              { it with summary := some s, processed := true }).1 := by
          rw [← hcc]; exact heq.symm
        have hgen : genStep cfg gen max_retries
            { it with summary := some s, processed := true } =
            ({ it with summary := some s, processed := true }, 0) := by
          unfold genStep
          rfl
        rw [hgen] at heq'
        subst heq'
        exact Or.inl ⟨rfl, he, rfl⟩

lemma process_batch_success_in_store (store : List (String × String)) (cfg : Config)
    (gen : String → Nat → GenOutcome) (max_retries : Nat) (batch : List RecallItem)
    (hfresh : ∀ it ∈ batch, fresh it = true) (it' : RecallItem) (s : String)
    (hmem : it' ∈
      (process_batch (some (storeLookup store)) cfg gen max_retries batch).items)
    (hproc : it'.processed = true) (hsum : it'.summary = some s) (hne : s ≠ "")
    (herr : it'.error = none) :
    (tableLookup
      (applyUpserts store
        (process_batch (some (storeLookup store)) cfg gen max_retries batch).upserts)
      it'.recall_id).isSome = true := by
  rw [process_batch_some_eq] at hmem ⊢
  by_cases hemp : ((batch.map (cacheCheck (storeLookup store))).filter
      (fun item => !item.processed)).isEmpty = true
  · rw [if_pos hemp] at hmem ⊢
    obtain ⟨it, hit, heq⟩ := List.mem_map.mp hmem
    rcases cacheCheck_fresh (storeLookup store) it (hfresh it hit) with
      hcc | ⟨t, hfound, hcc⟩
    · rw [hcc] at heq
      subst heq
      rw [(fresh_spec it (hfresh it hit)).1] at hproc
      exact absurd hproc (by simp)
    · rw [hcc] at heq
      subst heq
      show (tableLookup store it.recall_id).isSome = true
      unfold storeLookup at hfound
      cases htl : tableLookup store it.recall_id with
      | none => rw [htl] at hfound; exact absurd hfound (by simp)
      | some u => rfl
  · rw [if_neg hemp] at hmem ⊢
    apply tableLookup_applyUpserts_mem it'.recall_id s
    apply List.mem_filterMap.mpr
    refine ⟨it', hmem, ?_⟩
    simp [persistEntity, hsum, hproc, herr, hne]

lemma process_batch_all_hits (store : List (String × String)) (cfg : Config)
    (gen : String → Nat → GenOutcome) (max_retries : Nat) (batch : List RecallItem)
    (hfresh : ∀ it ∈ batch, fresh it = true)
    (hall : ∀ it ∈ batch, (tableLookup store it.recall_id).isSome = true) :
    (process_batch (some (storeLookup store)) cfg gen max_retries batch).genCalls = 0 ∧
    (process_batch (some (storeLookup store)) cfg gen max_retries batch).upserts = [] ∧
    (process_batch (some (storeLookup store)) cfg gen max_retries batch).lookups =
      batch.length ∧
    ∀ it' ∈ (process_batch (some (storeLookup store)) cfg gen max_retries batch).items,
      it'.processed = true ∧ it'.summary.isSome = true := by
  have hcc : ∀ it ∈ batch, ∃ u, cacheCheck (storeLookup store) it =
      { it with summary := some u, processed := true } := by
    intro it hit
    obtain ⟨hp, _, _⟩ := fresh_spec it (hfresh it hit)
    cases htl : tableLookup store it.recall_id with
    | none =>
      have := hall it hit
      rw [htl] at this
      exact absurd this (by simp)
    | some u =>
      refine ⟨u, ?_⟩
      unfold cacheCheck storeLookup
      rw [hp, htl]
      simp
  have hemp : ((batch.map (cacheCheck (storeLookup store))).filter
      (fun item => !item.processed)).isEmpty = true := by
    rw [List.isEmpty_iff, List.filter_eq_nil_iff]
    intro a ha
    obtain ⟨it, hit, heq⟩ := List.mem_map.mp ha
    obtain ⟨u, hccu⟩ := hcc it hit
    rw [hccu] at heq
    subst heq
    simp
  rw [process_batch_some_eq, if_pos hemp]
  refine ⟨rfl, rfl, ?_, ?_⟩
  · show (batch.filter (fun item => !item.processed)).length = batch.length
    have hself : batch.filter (fun item => !item.processed) = batch := by
      rw [List.filter_eq_self]
      intro a ha
      rw [(fresh_spec a (hfresh a ha)).1]
      rfl
    rw [hself]
  · intro it' h
    obtain ⟨it, hit, heq⟩ := List.mem_map.mp h
    obtain ⟨u, hccu⟩ := hcc it hit
    rw [hccu] at heq
    subst heq
    exact ⟨rfl, rfl⟩

/-! ### Facts about the batch loop of the run -/

lemma runBatches_items_mem (cfg : Config) (gen : String → Nat → GenOutcome) :
    ∀ (bs : List (List RecallItem)) (store : List (String × String))
      (it' : RecallItem), it' ∈ (runBatches cfg gen store bs).1 →
      ∃ st b, b ∈ bs ∧
        it' ∈ (process_batch (some (storeLookup st)) cfg gen 3 b).items := by
  intro bs
  induction bs with
  | nil =>
    intro store it' h
    simp [runBatches] at h
  | cons b rest ih =>
    intro store it' h
    have h' : it' ∈ (process_batch (some (storeLookup store)) cfg gen 3 b).items ++
        (runBatches cfg gen
          (applyUpserts store
            (process_batch (some (storeLookup store)) cfg gen 3 b).upserts)
          rest).1 := h
    rcases List.mem_append.mp h' with hmem | hmem
    · exact ⟨store, b, List.mem_cons_self b rest, hmem⟩
    · obtain ⟨st, b', hb', hm⟩ := ih _ it' hmem
      exact ⟨st, b', List.mem_cons_of_mem b hb', hm⟩

lemma runBatches_store_mono (cfg : Config) (gen : String → Nat → GenOutcome)
    (key : String) :
    ∀ (bs : List (List RecallItem)) (store : List (String × String)),
      (tableLookup store key).isSome = true →
      (tableLookup (runBatches cfg gen store bs).2.2.2 key).isSome = true := by
  intro bs
  induction bs with
  | nil => intro store h; exact h
  | cons b rest ih =>
    intro store h
    show (tableLookup
      (runBatches cfg gen
        (applyUpserts store
          (process_batch (some (storeLookup store)) cfg gen 3 b).upserts)
        rest).2.2.2 key).isSome = true
    exact ih _ (tableLookup_applyUpserts_isSome key _ store h)

lemma runBatches_all_hits (cfg : Config) (gen : String → Nat → GenOutcome) :
    ∀ (bs : List (List RecallItem)) (store : List (String × String)),
      (∀ b ∈ bs, ∀ it ∈ b, fresh it = true) →
      (∀ b ∈ bs, ∀ it ∈ b, (tableLookup store it.recall_id).isSome = true) →
      (runBatches cfg gen store bs).2.2.1 = 0 ∧
      (runBatches cfg gen store bs).2.2.2 = store ∧
      (runBatches cfg gen store bs).2.1 = (bs.map List.length).sum ∧
      ∀ it' ∈ (runBatches cfg gen store bs).1,
        it'.processed = true ∧ it'.summary.isSome = true := by
  intro bs
  induction bs with
  | nil =>
    intro store _ _
    exact ⟨rfl, rfl, rfl, by intro it' h; simp [runBatches] at h⟩
  | cons b rest ih =>
    intro store hfresh hall
    have hb := process_batch_all_hits store cfg gen 3 b
      (hfresh b (List.mem_cons_self b rest)) (hall b (List.mem_cons_self b rest))
    have hstore' : applyUpserts store
        (process_batch (some (storeLookup store)) cfg gen 3 b).upserts = store := by
      rw [hb.2.1]
      rfl
    have hr := ih store (fun b' hb' => hfresh b' (List.mem_cons_of_mem b hb'))
      (fun b' hb' => hall b' (List.mem_cons_of_mem b hb'))
    refine ⟨?_, ?_, ?_, ?_⟩
    · show (process_batch (some (storeLookup store)) cfg gen 3 b).genCalls +
        (runBatches cfg gen
          (applyUpserts store
            (process_batch (some (storeLookup store)) cfg gen 3 b).upserts)
          rest).2.2.1 = 0
      rw [hstore', hb.1, hr.1]
    · show (runBatches cfg gen
          (applyUpserts store
            (process_batch (some (storeLookup store)) cfg gen 3 b).upserts)
          rest).2.2.2 = store
      rw [hstore', hr.2.1]
    · show (process_batch (some (storeLookup store)) cfg gen 3 b).lookups +
        (runBatches cfg gen
          (applyUpserts store
            (process_batch (some (storeLookup store)) cfg gen 3 b).upserts)
          rest).2.1 = ((b :: rest).map List.length).sum
      rw [hstore', hb.2.2.1, hr.2.2.1, List.map_cons, List.sum_cons]
    · intro it' h
      have h' : it' ∈ (process_batch (some (storeLookup store)) cfg gen 3 b).items ++
          (runBatches cfg gen
            (applyUpserts store
              (process_batch (some (storeLookup store)) cfg gen 3 b).upserts)
            rest).1 := h
      rw [hstore'] at h'
      rcases List.mem_append.mp h' with hmem | hmem
      · exact hb.2.2.2 it' hmem
      · exact hr.2.2.2 it' hmem

lemma runBatches_coverage (cfg : Config) (gen : String → Nat → GenOutcome) :
    ∀ (bs : List (List RecallItem)) (store : List (String × String)),
      (∀ b ∈ bs, ∀ it ∈ b, fresh it = true) →
      (∀ it' ∈ (runBatches cfg gen store bs).1,
        it'.processed = true ∧ it'.error = none ∧
          ∃ s, it'.summary = some s ∧ s ≠ "") →
      ∀ b ∈ bs, ∀ it ∈ b,
        (tableLookup (runBatches cfg gen store bs).2.2.2 it.recall_id).isSome =
          true := by
  intro bs
  induction bs with
  | nil =>
    intro store _ _ b hb
    simp at hb
  | cons bhead rest ih =>
    intro store hfresh hsucc b hb it hit
    have hsucc' : ∀ it' ∈ (process_batch (some (storeLookup store)) cfg gen 3
          bhead).items ++
        (runBatches cfg gen
          (applyUpserts store
            (process_batch (some (storeLookup store)) cfg gen 3 bhead).upserts)
          rest).1,
        it'.processed = true ∧ it'.error = none ∧
          ∃ s, it'.summary = some s ∧ s ≠ "" := hsucc
    show (tableLookup
      (runBatches cfg gen
        (applyUpserts store
          (process_batch (some (storeLookup store)) cfg gen 3 bhead).upserts)
        rest).2.2.2 it.recall_id).isSome = true
    rcases List.mem_cons.mp hb with rfl | hbrest
    · have hids := process_batch_ids (some (storeLookup store)) cfg gen 3 b
      have hidmem : it.recall_id ∈
          ((process_batch (some (storeLookup store)) cfg gen 3 b).items).map
            (fun i => i.recall_id) := by
        rw [hids]
        exact List.mem_map_of_mem _ hit
      obtain ⟨it', hmem', hid'⟩ := List.mem_map.mp hidmem
      have hs := hsucc' it' (List.mem_append.mpr (Or.inl hmem'))
      obtain ⟨s, hsum, hne⟩ := hs.2.2
      have hkey := process_batch_success_in_store store cfg gen 3 b
        (hfresh b (List.mem_cons_self b rest)) it' s hmem' hs.1 hsum hne hs.2.1
      rw [hid'] at hkey
      exact runBatches_store_mono cfg gen it.recall_id rest _ hkey
    · exact ih
        (applyUpserts store
          (process_batch (some (storeLookup store)) cfg gen 3 bhead).upserts)
        (fun b' hb' => hfresh b' (List.mem_cons_of_mem bhead hb'))
        (fun it' h => hsucc' it' (List.mem_append.mpr (Or.inr h)))
        b hbrest it hit

/-- C9: every item returned by a processed batch (over freshly loaded items)
and every item of a completed run is terminal with exactly one of
`summary`/`error` set, consistent with its state: `summary` is set iff the
item succeeded (`processed = true`, the CacheHit/Generated states), and
`error` is set iff it did not (`processed = false`, the Failed/Skipped
states); the two cases are mutually exclusive. -/
theorem C9_exclusivity :
    (∀ (client : Option (String → LookupResult)) (cfg : Config)
        (gen : String → Nat → GenOutcome) (max_retries : Nat)
        (batch : List RecallItem),
      (∀ it ∈ batch, fresh it = true) →
      ∀ it' ∈ (process_batch client cfg gen max_retries batch).items,
        (it'.summary.isSome = true ∧ it'.error = none ∧ it'.processed = true) ∨
        (it'.summary = none ∧ it'.error.isSome = true ∧
          it'.processed = false)) ∧
    (∀ (connection_string : Option String) (connectOk : Bool)
        (store : List (String × String)) (cfg : Config)
        (gen : String → Nat → GenOutcome) (recall_items : List RecallItem)
        (batch_size : Nat) (r : RunResult),
      (∀ it ∈ recall_items, fresh it = true) →
      process_food_recall_data connection_string connectOk store cfg gen
        recall_items batch_size = some r →
      ∀ it' ∈ r.items,
        (it'.summary.isSome = true ∧ it'.error = none ∧ it'.processed = true) ∨
        (it'.summary = none ∧ it'.error.isSome = true ∧
          it'.processed = false)) := by
  constructor
  · intro client cfg gen mr batch hfresh it' h
    exact process_batch_terminal client cfg gen mr batch hfresh it' h
  · intro conn ok store cfg gen items B r hfresh hr it' h
    unfold process_food_recall_data at hr
    split at hr
    · injection hr with hr'
      subst hr'
      have h' : it' ∈ (runBatches cfg gen store (split items B)).1 := h
      obtain ⟨st, b, hb, hmem⟩ :=
        runBatches_items_mem cfg gen (split items B) store it' h'
      exact process_batch_terminal (some (storeLookup st)) cfg gen 3 b
        (fun it hit => hfresh it (split_subset items B b hb it hit)) it' hmem
    · exact absurd hr (by simp)

/-- Witness for C9: the skip-marked item produced by a batch with no table
client satisfies the exclusivity disjunction (error set, summary unset). -/
theorem C9_exclusivity_witness :
    (itemA_skipped.summary.isSome = true ∧ itemA_skipped.error = none ∧
      itemA_skipped.processed = true) ∨
    (itemA_skipped.summary = none ∧ itemA_skipped.error.isSome = true ∧
      itemA_skipped.processed = false) :=
  C9_exclusivity.1 none cfgFull genOk 3 [itemA] (by decide) itemA_skipped
    (by decide)

lemma split_length_sum {α : Type} (items : List α) (B : Nat) (hB : 1 ≤ B) :
    ((split items B).map List.length).sum = items.length := by
  rw [← List.length_flatten, split_flatten items B hB]

/-- C2: if a run completes with every returned item successful — processed,
no error, and a nonempty summary, which is exactly the condition under which
the batch's grouped upsert persisted the item — then a second run over the
same freshly loaded input against the resulting store also completes,
issues zero generation calls, performs exactly one cache query per item,
and resolves every item as a cache hit (processed with a summary taken from
the store). -/
theorem C2_idempotent_rerun (connection_string : Option String) (connectOk : Bool)
    (store : List (String × String)) (cfg : Config)
    (gen1 gen2 : String → Nat → GenOutcome) (recall_items : List RecallItem)
    (batch_size : Nat) (r1 : RunResult)
    (hB : 1 ≤ batch_size)
    (hfresh : ∀ it ∈ recall_items, fresh it = true)
    (hr1 : process_food_recall_data connection_string connectOk store cfg gen1
      recall_items batch_size = some r1)
    (hsucc : ∀ it ∈ r1.items, it.processed = true ∧ it.error = none ∧
      ∃ s, it.summary = some s ∧ s ≠ "") :
    (process_food_recall_data connection_string connectOk r1.store cfg gen2
      recall_items batch_size).isSome = true ∧
    ∀ r2, process_food_recall_data connection_string connectOk r1.store cfg gen2
        recall_items batch_size = some r2 →
      r2.genCalls = 0 ∧ r2.lookups = recall_items.length ∧
      ∀ it' ∈ r2.items, it'.processed = true ∧ it'.summary.isSome = true := by
  unfold process_food_recall_data at hr1
  split at hr1
  case isFalse => exact absurd hr1 (by simp)
  case isTrue hg =>
    injection hr1 with hr1'
    subst hr1'
    have hfreshb : ∀ b ∈ split recall_items batch_size, ∀ it ∈ b,
        fresh it = true :=
      fun b hb it hit => hfresh it (split_subset recall_items batch_size b hb it hit)
    have hsucc' : ∀ it' ∈
        (runBatches cfg gen1 store (split recall_items batch_size)).1,
        it'.processed = true ∧ it'.error = none ∧
          ∃ s, it'.summary = some s ∧ s ≠ "" := hsucc
    have hcov := runBatches_coverage cfg gen1 (split recall_items batch_size)
      store hfreshb hsucc'
    have hAll := runBatches_all_hits cfg gen2 (split recall_items batch_size)
      (runBatches cfg gen1 store (split recall_items batch_size)).2.2.2 hfreshb hcov
    constructor
    · unfold process_food_recall_data
      rw [if_pos hg]
      rfl
    · intro r2 hr2
      unfold process_food_recall_data at hr2
      rw [if_pos hg] at hr2
      injection hr2 with hr2'
      subst hr2'
      refine ⟨hAll.1, ?_, hAll.2.2.2⟩
      show (runBatches cfg gen2
        (runBatches cfg gen1 store (split recall_items batch_size)).2.2.2
        (split recall_items batch_size)).2.1 = recall_items.length
      rw [hAll.2.2.1]
      exact split_length_sum recall_items batch_size hB

/-- Witness for C2: one item, generated and persisted in run 1; run 2 over
the same input completes against the resulting store with zero generation
calls even though its generator would fail every attempt. -/
theorem C2_idempotent_rerun_witness :
    (process_food_recall_data (some "conn") true run1Result.store cfgFull
      genDown [itemA] 1).isSome = true ∧
    run2Result.genCalls = 0 ∧ run2Result.lookups = 1 := by
  have h := C2_idempotent_rerun (some "conn") true [] cfgFull genOk genDown
    [itemA] 1 run1Result (by decide) (by decide) (by rfl)
    (by
      intro it hit
      have hit' : it = itemA_generated := by
        simpa [run1Result] using hit
      subst hit'
      exact ⟨rfl, rfl, "a summary", rfl, by decide⟩)
  refine ⟨h.1, (h.2 run2Result (by rfl)).1, ?_⟩
  have := (h.2 run2Result (by rfl)).2.1
  simpa using this

lemma persistEntity_eq_some (item : RecallItem) (k v : String) :
    persistEntity item = some (k, v) ↔
      item.recall_id = k ∧ item.summary = some v ∧ v ≠ "" ∧
      item.processed = true ∧ item.error = none := by
  unfold persistEntity
  cases hs : item.summary with
  | none => simp
  | some s =>
    show (if item.processed && s != "" && item.error.isNone then
        some (item.recall_id, s) else none) = some (k, v) ↔
      item.recall_id = k ∧ some s = some v ∧ v ≠ "" ∧
      item.processed = true ∧ item.error = none
    by_cases hcond : (item.processed && s != "" && item.error.isNone) = true
    · rw [if_pos hcond]
      simp only [Bool.and_eq_true, bne_iff_ne, Option.isNone_iff_eq_none]
        at hcond
      constructor
      · intro h
        have h' := Option.some_inj.mp h
        have h1 : item.recall_id = k := congrArg Prod.fst h'
        have h2 : s = v := congrArg Prod.snd h'
        subst h2
        exact ⟨h1, rfl, hcond.1.2, hcond.1.1, hcond.2⟩
      · rintro ⟨h1, h2, h3, h4, h5⟩
        have h2' : s = v := Option.some_inj.mp h2
        rw [h1, h2']
    · rw [if_neg hcond]
      constructor
      · intro h
        exact absurd h (by simp)
      · rintro ⟨h1, h2, h3, h4, h5⟩
        exfalso
        apply hcond
        have h2' : s = v := Option.some_inj.mp h2
        subst h2'
        simp only [h4, h5, Option.isNone_none, Bool.and_true, Bool.true_and,
          bne_iff_ne]
        exact h3

lemma mem_filterMap_persist (I : List RecallItem) (k v : String) :
    (k, v) ∈ I.filterMap persistEntity ↔
      ∃ it' ∈ I, it'.recall_id = k ∧ it'.summary = some v ∧ v ≠ "" ∧
        it'.processed = true ∧ it'.error = none := by
  rw [List.mem_filterMap]
  constructor
  · rintro ⟨a, ha, hpe⟩
    exact ⟨a, ha, (persistEntity_eq_some a k v).mp hpe⟩
  · rintro ⟨a, ha, hc⟩
    exact ⟨a, ha, (persistEntity_eq_some a k v).mpr hc⟩

/-- Counterexample to C3 as stated: with the store already holding a summary
for item `"B"`, processing the batch `[A, B]` resolves `B` as a cache hit,
yet the batch's grouped upsert contains `B`'s entity as well — the persist
filter of line 216 does not exclude cache-resident items. -/
theorem C3_counterexample :
    storeLookup storeB itemB.recall_id = LookupResult.found "cached summary" ∧
    ("B", "cached summary") ∈
      (process_batch (some (storeLookup storeB)) cfgFull genOk 3
        [itemA, itemB]).upserts := by
  constructor
  · rfl
  · decide

/-- C3 amended: whenever the cache pre-check leaves at least one item of the
batch unprocessed, the grouped upsert contains exactly the
`(RowKey, summary)` pairs of the successful items of the returned batch —
processed, nonempty summary, no error — including items that were resolved
as cache hits; a batch left with nothing to generate skips the persist step
entirely. -/
theorem C3_persist_filter (lk : String → LookupResult) (cfg : Config)
    (gen : String → Nat → GenOutcome) (max_retries : Nat)
    (batch : List RecallItem) (k v : String)
    (hleft : ∃ it ∈ batch, (cacheCheck lk it).processed = false) :
    (k, v) ∈ (process_batch (some lk) cfg gen max_retries batch).upserts ↔
      ∃ it' ∈ (process_batch (some lk) cfg gen max_retries batch).items,
        it'.recall_id = k ∧ it'.summary = some v ∧ v ≠ "" ∧
        it'.processed = true ∧ it'.error = none := by
  have hne : ((batch.map (cacheCheck lk)).filter
      (fun item => !item.processed)).isEmpty = false := by
    obtain ⟨it, hit, hcc⟩ := hleft
    have hmemf : cacheCheck lk it ∈ (batch.map (cacheCheck lk)).filter
        (fun item => !item.processed) := by
      rw [List.mem_filter]
      exact ⟨List.mem_map_of_mem _ hit, by rw [hcc]; rfl⟩
    cases hfilter : (batch.map (cacheCheck lk)).filter
        (fun item => !item.processed) with
    | nil => rw [hfilter] at hmemf; exact absurd hmemf (by simp)
    | cons a l => rfl
  rw [process_batch_some_eq, if_neg (by rw [hne]; simp)]
  exact mem_filterMap_persist _ k v

/-- Witness for C3 amended: in the `[A, B]` batch with `B` cached, the newly
generated entity for `A` is part of the grouped upsert. -/
theorem C3_persist_filter_witness :
    ("A", "a summary") ∈
      (process_batch (some (storeLookup storeB)) cfgFull genOk 3
        [itemA, itemB]).upserts :=
  (C3_persist_filter (storeLookup storeB) cfgFull genOk 3 [itemA, itemB]
    "A" "a summary" ⟨itemA, by decide, by decide⟩).mpr
    ⟨itemA_generated, by decide, rfl, rfl, by decide, rfl, rfl⟩

/-- Counterexample to C7 as stated: with the table store unreachable at run
start, `process_food_recall_data` returns failure before loading or creating
any item (modelled as `none`) — it produces no per-item outcomes, so no item
of the run ends in a Skipped state with a reported reason. -/
theorem C7_counterexample :
    process_food_recall_data (some "conn") false [] cfgFull genOk [itemA] 50 =
      none := rfl

/-- C7 amended: an unreachable store at run start makes the run abort with
failure before any per-item work, so zero generation calls occur and no item
outcome is produced; the mark-everything-skipped behaviour exists one level
down: `process_batch` invoked with no table client marks every item of its
batch unprocessed with the distinct reason "Skipped due to unavailable Table
Storage" and performs zero cache queries, zero generation calls and zero
upserts. -/
theorem C7_store_unavailable (connection_string : Option String)
    (store : List (String × String)) (cfg : Config)
    (gen : String → Nat → GenOutcome) (recall_items : List RecallItem)
    (batch_size max_retries : Nat) (batch : List RecallItem) :
    process_food_recall_data connection_string false store cfg gen recall_items
      batch_size = none ∧
    (process_batch none cfg gen max_retries batch).items =
      batch.map (fun item =>
        { item with processed := false, error := some skippedError }) ∧
    (process_batch none cfg gen max_retries batch).genCalls = 0 ∧
    (process_batch none cfg gen max_retries batch).lookups = 0 ∧
    (process_batch none cfg gen max_retries batch).upserts = [] := by
  refine ⟨?_, rfl, rfl, rfl, rfl⟩
  unfold process_food_recall_data get_table_client
  simp

lemma genStep_incomplete_snd (cfg : Config) (gen : String → Nat → GenOutcome)
    (max_retries : Nat) (item : RecallItem) (hc : cfg.complete = false) :
    (genStep cfg gen max_retries item).2 = 0 := by
  unfold genStep
  split
  · rfl
  · rw [generate_incomplete cfg (gen item.recall_id) item max_retries hc]
    split
    · rfl
    · rfl

lemma genStep_incomplete_item (cfg : Config) (gen : String → Nat → GenOutcome)
    (max_retries : Nat) (item : RecallItem) (hc : cfg.complete = false) :
    ((genStep cfg gen max_retries item).1).processed = true ∨
      ((genStep cfg gen max_retries item).1).error.isSome = true := by
  unfold genStep
  split
  · next hp => exact Or.inl hp
  · rw [generate_incomplete cfg (gen item.recall_id) item max_retries hc]
    split
    · next hp => exact Or.inl hp
    · exact Or.inr rfl

lemma process_batch_incomplete (lk : String → LookupResult) (cfg : Config)
    (gen : String → Nat → GenOutcome) (max_retries : Nat)
    (batch : List RecallItem) (hc : cfg.complete = false) :
    (process_batch (some lk) cfg gen max_retries batch).genCalls = 0 ∧
    ∀ it' ∈ (process_batch (some lk) cfg gen max_retries batch).items,
      it'.processed = true ∨ it'.error.isSome = true := by
  rw [process_batch_some_eq]
  split
  · next hemp =>
    refine ⟨rfl, ?_⟩
    intro it' h
    rw [List.isEmpty_iff, List.filter_eq_nil_iff] at hemp
    have := hemp it' h
    exact Or.inl (by simpa using this)
  · refine ⟨?_, ?_⟩
    · show (((batch.map (cacheCheck lk)).map
        (genStep cfg gen max_retries)).map Prod.snd).sum = 0
      apply List.sum_eq_zero
      intro n hn
      rw [List.map_map] at hn
      obtain ⟨a, ha, heq⟩ := List.mem_map.mp hn
      rw [← heq]
      exact genStep_incomplete_snd cfg gen max_retries a hc
    · intro it' h
      have h' : it' ∈ ((batch.map (cacheCheck lk)).map
          (genStep cfg gen max_retries)).map Prod.fst := h
      rw [List.map_map] at h'
      obtain ⟨a, ha, heq⟩ := List.mem_map.mp h'
      rw [← heq]
      exact genStep_incomplete_item cfg gen max_retries a hc

lemma runBatches_incomplete (cfg : Config) (gen : String → Nat → GenOutcome)
    (hc : cfg.complete = false) :
    ∀ (bs : List (List RecallItem)) (store : List (String × String)),
      (runBatches cfg gen store bs).2.2.1 = 0 ∧
      ∀ it' ∈ (runBatches cfg gen store bs).1,
        it'.processed = true ∨ it'.error.isSome = true := by
  intro bs
  induction bs with
  | nil =>
    intro store
    exact ⟨rfl, by intro it' h; simp [runBatches] at h⟩
  | cons b rest ih =>
    intro store
    have hb := process_batch_incomplete (storeLookup store) cfg gen 3 b hc
    have hr := ih (applyUpserts store
      (process_batch (some (storeLookup store)) cfg gen 3 b).upserts)
    constructor
    · show (process_batch (some (storeLookup store)) cfg gen 3 b).genCalls +
        (runBatches cfg gen
          (applyUpserts store
            (process_batch (some (storeLookup store)) cfg gen 3 b).upserts)
          rest).2.2.1 = 0
      rw [hb.1, hr.1]
    · intro it' h
      have h' : it' ∈ (process_batch (some (storeLookup store)) cfg gen 3 b).items ++
          (runBatches cfg gen
            (applyUpserts store
              (process_batch (some (storeLookup store)) cfg gen 3 b).upserts)
            rest).1 := h
      rcases List.mem_append.mp h' with hm | hm
      · exact hb.2 it' hm
      · exact hr.2 it' hm

/-- Counterexample to C8 as stated: with all generation credentials missing
but storage available, the run does not abort before per-item work — it
completes, performs one cache lookup for the item, and marks the item with
the configuration error (no generation-service call is issued). -/
theorem C8_counterexample :
    process_food_recall_data (some "conn") true [] cfgEmpty genOk [itemA] 1 =
      some runConfigErr := rfl

/-- C8 amended: only the storage half fails fast — a missing storage
connection string aborts the run before any per-item work; missing
generation credentials do not abort the run: it completes, cache lookups
still happen, no call to the generation service is issued anywhere in the
run, and every returned item is either a cache hit or carries an error (the
configuration error for the items that reached the generator). -/
theorem C8_config_validation (connection_string : Option String)
    (connectOk : Bool) (store : List (String × String)) (cfg : Config)
    (gen : String → Nat → GenOutcome) (recall_items : List RecallItem)
    (batch_size : Nat) (hmiss : cfg.complete = false) :
    process_food_recall_data none connectOk store cfg gen recall_items
      batch_size = none ∧
    ∀ r, process_food_recall_data connection_string connectOk store cfg gen
        recall_items batch_size = some r →
      r.genCalls = 0 ∧
      ∀ it' ∈ r.items, it'.processed = true ∨ it'.error.isSome = true := by
  constructor
  · unfold process_food_recall_data get_table_client
    simp
  · intro r hr
    unfold process_food_recall_data at hr
    split at hr
    · injection hr with hr'
      subst hr'
      have h := runBatches_incomplete cfg gen hmiss
        (split recall_items batch_size) store
      exact ⟨h.1, h.2⟩
    · exact absurd hr (by simp)

/-- Witness for C8 amended: the storage-missing run aborts, and the
credentials-missing run of the counterexample issues zero generation
calls. -/
theorem C8_config_validation_witness :
    process_food_recall_data none true [] cfgEmpty genOk [itemA] 1 = none ∧
    runConfigErr.genCalls = 0 := by
  have h := C8_config_validation (some "conn") true [] cfgEmpty genOk [itemA] 1
    (by rfl)
  exact ⟨h.1, (h.2 runConfigErr (by rfl)).1⟩

/-- C10: a per-item cache-lookup exception is swallowed: the pre-check of an
unprocessed item whose table query raises leaves the item exactly unchanged
(still pending, not Skipped, not Failed), and the whole batch behaves
identically to one in which every raising query had instead reported a
miss — the item proceeds to a generation call like a cache miss and the
batch is never aborted. -/
theorem C10_lookup_error_is_miss (lk lkMiss : String → LookupResult)
    (cfg : Config) (gen : String → Nat → GenOutcome) (max_retries : Nat)
    (item : RecallItem) (batch : List RecallItem) (msg : String)
    (hp : item.processed = false)
    (hitem : lk item.recall_id = LookupResult.lookupError msg)
    (hagree : ∀ key, lkMiss key =
      match lk key with
      | LookupResult.lookupError _ => LookupResult.notFound
      | r => r) :
    cacheCheck lk item = item ∧
    process_batch (some lk) cfg gen max_retries batch =
      process_batch (some lkMiss) cfg gen max_retries batch := by
  have hcc : ∀ it, cacheCheck lk it = cacheCheck lkMiss it := by
    intro it
    unfold cacheCheck
    split
    · rfl
    · rw [hagree it.recall_id]
      cases lk it.recall_id <;> rfl
  constructor
  · unfold cacheCheck
    rw [hp]
    simp only [Bool.false_eq_true, if_false]
    rw [hitem]
  · rw [process_batch_some_eq, process_batch_some_eq,
      List.map_congr_left (fun a _ => hcc a)]

/-- Witness for C10: an always-raising table query behaves exactly like an
always-missing one on the batch `[itemA]`, and leaves `itemA` unchanged. -/
theorem C10_lookup_error_is_miss_witness :
    cacheCheck lkErr itemA = itemA ∧
    process_batch (some lkErr) cfgFull genOk 3 [itemA] =
      process_batch (some lkMissAll) cfgFull genOk 3 [itemA] :=
  C10_lookup_error_is_miss lkErr lkMissAll cfgFull genOk 3 itemA [itemA]
    "query failed" rfl rfl (fun key => rfl)
